import Mathlib

/-!
Verification of the shared-memory syscall shim in
`src/apps/macos/unbound-macos/Services/Daemon/shm_helpers.c`.

The shim consists of two functions, `shm_open_wrapper` and
`shm_unlink_wrapper`, each of which forwards its arguments to the
corresponding POSIX call (`shm_open` / `shm_unlink`) and returns the
result unchanged.  The platform calls themselves are not part of the
repository, so they are modelled here from the specification: the
shared-memory namespace is a finite association of names to objects,
calls return a non-negative descriptor or `-1` together with an errno
value, and name validity follows the platform naming rule stated in the
spec (leading `/`, no embedded `/` afterwards, non-empty remainder).
-/

namespace ShmHelpers

/-- Error codes that the modelled platform calls can report through the
process-wide errno side channel. -/
inductive Errno : Type where
  | EEXIST
  | ENOENT
  | EINVAL
deriving DecidableEq, Repr

/-- A named shared-memory object in the kernel namespace: its current
length in bytes and the permission mode it was created with. -/
structure ShmObject : Type where
  size : Nat
  mode : Nat
deriving DecidableEq, Repr

/-- The kernel shared-memory namespace together with the next file
descriptor the process would be handed on a successful open. -/
structure SysState : Type where
  names : List (String × ShmObject)
  nextFd : Nat
deriving DecidableEq, Repr

/-- The outcome of one platform call: the integer return value, the errno
value set on failure (none on success), and the namespace state after the
call. -/
structure CallResult : Type where
  ret : Int
  errno : Option Errno
  state : SysState
deriving DecidableEq, Repr

/-- Look a name up in the namespace association list. -/
def lookupName : List (String × ShmObject) → String → Option ShmObject
  | [], _ => none
  | p :: rest, name => if p.1 = name then some p.2 else lookupName rest name

/-- Replace the object stored under a name, leaving other entries alone. -/
def setName : List (String × ShmObject) → String → ShmObject → List (String × ShmObject)
  | [], _, _ => []
  | p :: rest, name, obj =>
      if p.1 = name then (name, obj) :: setName rest name obj
      else p :: setName rest name obj

/-- Remove every entry stored under a name, leaving other entries alone. -/
def removeName : List (String × ShmObject) → String → List (String × ShmObject)
  | [], _ => []
  | p :: rest, name =>
      if p.1 = name then removeName rest name else p :: removeName rest name

/-- The create flag of the open-flag bitmask (O_CREAT, macOS value). -/
def O_CREAT : Nat := 512

/-- The exclusive flag of the open-flag bitmask (O_EXCL, macOS value). -/
def O_EXCL : Nat := 2048

/-- The truncate flag of the open-flag bitmask (O_TRUNC, macOS value). -/
def O_TRUNC : Nat := 1024

/-- The read-write access mode of the open-flag bitmask (O_RDWR). -/
def O_RDWR : Nat := 2

/-- Test whether a flag is set in an open-flag bitmask. -/
def hasFlag (oflag flag : Nat) : Bool := (oflag &&& flag) != 0

/-- Modelled from the spec: platform shared-memory naming rule.  A name is
well formed when it starts with `/`, has a non-empty remainder, and
contains no embedded `/` after the leading one. -/
def validShmName (name : String) : Bool :=
  match name.data with
  | [] => false
  | c :: rest => c == '/' && !rest.isEmpty && !rest.contains '/'

/-- Modelled from the spec: the platform call `shm_open` (not part of the
repository).  A malformed name fails with EINVAL; an existing name opened
with both create and exclusive flags fails with EEXIST; a missing name
opened without the create flag fails with ENOENT; otherwise the call
succeeds, returning a fresh non-negative descriptor, creating a zero-length
object when the name was absent and truncating the existing object to
length zero when the truncate flag is set. -/
def shm_open (name : String) (oflag : Nat) (mode : Nat) (s : SysState) : CallResult :=
  if validShmName name then
    match lookupName s.names name with
    | some obj =>
        if hasFlag oflag O_CREAT && hasFlag oflag O_EXCL then
          ⟨-1, some Errno.EEXIST, s⟩
        else
          ⟨Int.ofNat s.nextFd, none,
            ⟨setName s.names name
              (if hasFlag oflag O_TRUNC then { obj with size := 0 } else obj),
             s.nextFd + 1⟩⟩
    | none =>
        if hasFlag oflag O_CREAT then
          ⟨Int.ofNat s.nextFd, none,
            ⟨(name, ⟨0, mode⟩) :: s.names, s.nextFd + 1⟩⟩
        else
          ⟨-1, some Errno.ENOENT, s⟩
  else
    ⟨-1, some Errno.EINVAL, s⟩

/-- Modelled from the spec: the platform call `shm_unlink` (not part of
the repository).  Removing a missing name fails with ENOENT; otherwise the
entry is removed from the namespace and the call returns 0. -/
def shm_unlink (name : String) (s : SysState) : CallResult :=
  match lookupName s.names name with
  | some _ => ⟨0, none, ⟨removeName s.names name, s.nextFd⟩⟩
  | none => ⟨-1, some Errno.ENOENT, s⟩

/-- Embedding of `shm_open_wrapper` from `shm_helpers.c`: the body is
exactly `return shm_open(name, oflag, mode);`. -/
def shm_open_wrapper (name : String) (oflag : Nat) (mode : Nat) (s : SysState) : CallResult :=
  shm_open name oflag mode s

/-- Embedding of `shm_unlink_wrapper` from `shm_helpers.c`: the body is
exactly `return shm_unlink(name);`. -/
def shm_unlink_wrapper (name : String) (s : SysState) : CallResult :=
  shm_unlink name s

/-- C1: for every name, oflag, mode and namespace state, the wrappers are
exactly equal to the underlying platform calls — same return value, same
errno, same resulting state; the shim adds no logic of its own. -/
theorem shm_wrappers_pass_through :
    (∀ (name : String) (oflag mode : Nat) (s : SysState),
        shm_open_wrapper name oflag mode s = shm_open name oflag mode s) ∧
    (∀ (name : String) (s : SysState),
        shm_unlink_wrapper name s = shm_unlink name s) :=
  ⟨fun _ _ _ _ => rfl, fun _ _ => rfl⟩

/-- C2: for every input, `shm_open_wrapper` returns a non-negative
descriptor or `-1`, and `shm_unlink_wrapper` returns 0 or `-1`; no other
return values occur. -/
theorem wrapper_return_values (name : String) (oflag mode : Nat) (s : SysState) :
    ((shm_open_wrapper name oflag mode s).ret = -1 ∨
      0 ≤ (shm_open_wrapper name oflag mode s).ret) ∧
    ((shm_unlink_wrapper name s).ret = 0 ∨ (shm_unlink_wrapper name s).ret = -1) := by
  constructor
  · unfold shm_open_wrapper shm_open
    split
    · split
      · split
        · exact Or.inl rfl
        · exact Or.inr (Int.ofNat_nonneg _)
      · split
        · exact Or.inr (Int.ofNat_nonneg _)
        · exact Or.inl rfl
    · exact Or.inl rfl
  · unfold shm_unlink_wrapper shm_unlink
    split
    · exact Or.inl rfl
    · exact Or.inr rfl

/-- Looking up a key after replacing a name's object: the addressed name
gets the new object (when it was present), every other key is unchanged. -/
theorem lookupName_setName (l : List (String × ShmObject)) (name : String)
    (obj : ShmObject) (k : String) :
    lookupName (setName l name obj) k =
      if k = name then Option.map (fun _ => obj) (lookupName l name)
      else lookupName l k := by
  induction l with
  | nil =>
    simp [setName, lookupName]
  | cons p rest ih =>
    by_cases h1 : p.1 = name
    · by_cases h2 : k = name
      · subst h2
        simp [setName, lookupName, h1, ih]
      · have h3 : ¬ name = k := fun h => h2 h.symm
        have h4 : ¬ p.1 = k := by rw [h1]; exact h3
        simp [setName, lookupName, h1, h2, h3, h4, ih]
    · by_cases h2 : k = name
      · subst h2
        have h3 : ¬ p.1 = k := h1
        simp [setName, lookupName, h1, h3, ih]
      · simp [setName, lookupName, h1, h2, ih]

/-- Looking up a key after removing a name: the addressed name is gone,
every other key is unchanged. -/
theorem lookupName_removeName (l : List (String × ShmObject)) (name : String)
    (k : String) :
    lookupName (removeName l name) k =
      if k = name then none else lookupName l k := by
  induction l with
  | nil =>
    simp [removeName, lookupName]
  | cons p rest ih =>
    by_cases h1 : p.1 = name
    · by_cases h2 : k = name
      · subst h2
        simp [removeName, lookupName, h1, ih]
      · have h3 : ¬ name = k := fun h => h2 h.symm
        simp [removeName, lookupName, h1, h2, h3, ih]
    · by_cases h2 : k = name
      · subst h2
        have h3 : ¬ p.1 = k := h1
        simp [removeName, lookupName, h1, h3, ih]
      · simp [removeName, lookupName, h1, h2, ih]

/-- A successful open implies the name passed the platform naming rule. -/
theorem shm_open_success_valid (name : String) (oflag mode : Nat) (s : SysState)
    (h : 0 ≤ (shm_open name oflag mode s).ret) :
    validShmName name = true := by
  cases hv : validShmName name with
  | true => rfl
  | false =>
    exfalso
    rw [shm_open] at h
    simp [hv] at h

/-- After any unlink, successful or not, the addressed name is absent from
the resulting namespace. -/
theorem shm_unlink_absent_after (name : String) (s : SysState) :
    lookupName (shm_unlink name s).state.names name = none := by
  rw [shm_unlink]
  cases hl : lookupName s.names name with
  | none => simpa using hl
  | some obj => simp [lookupName_removeName]

/-- Opening a missing name without the create flag fails with ENOENT and
leaves the state unchanged. -/
theorem shm_open_absent_nocreate (name : String) (oflag mode : Nat) (s : SysState)
    (hv : validShmName name = true)
    (habs : lookupName s.names name = none)
    (hnc : hasFlag oflag O_CREAT = false) :
    shm_open name oflag mode s = ⟨-1, some Errno.ENOENT, s⟩ := by
  rw [shm_open]
  simp [hv, habs, hnc]

/-- C3: opening a name that already exists in the namespace with both the
create and exclusive flags set fails with return value `-1` and errno
EEXIST.  The name is assumed well formed, as every name actually present
in the platform namespace is. -/
theorem open_create_excl_existing_eexist (name : String) (oflag mode : Nat)
    (s : SysState) (obj : ShmObject)
    (hv : validShmName name = true)
    (hex : lookupName s.names name = some obj)
    (hc : hasFlag oflag O_CREAT = true)
    (hx : hasFlag oflag O_EXCL = true) :
    (shm_open_wrapper name oflag mode s).ret = -1 ∧
    (shm_open_wrapper name oflag mode s).errno = some Errno.EEXIST := by
  rw [shm_open_wrapper, shm_open]
  simp [hv, hex, hc, hx]

/-- Witness for C3 at the spec's concrete example: name "/test-shm-1"
already present, flags O_CREAT | O_EXCL | O_RDWR. -/
theorem open_create_excl_existing_eexist_witness :
    (shm_open_wrapper "/test-shm-1" 2562 384
        ⟨[("/test-shm-1", ⟨0, 384⟩)], 3⟩).ret = -1 ∧
    (shm_open_wrapper "/test-shm-1" 2562 384
        ⟨[("/test-shm-1", ⟨0, 384⟩)], 3⟩).errno = some Errno.EEXIST :=
  open_create_excl_existing_eexist "/test-shm-1" 2562 384
    ⟨[("/test-shm-1", ⟨0, 384⟩)], 3⟩ ⟨0, 384⟩
    (by decide) (by decide) (by decide) (by decide)

/-- C5: opening a well-formed name that is absent from the namespace with
the create flag set succeeds: the return value is a non-negative
descriptor and no errno is reported. -/
theorem open_create_fresh_succeeds (name : String) (oflag mode : Nat)
    (s : SysState)
    (hv : validShmName name = true)
    (habs : lookupName s.names name = none)
    (hc : hasFlag oflag O_CREAT = true) :
    0 ≤ (shm_open_wrapper name oflag mode s).ret ∧
    (shm_open_wrapper name oflag mode s).errno = none := by
  rw [shm_open_wrapper, shm_open]
  simp [hv, habs, hc]

/-- Witness for C5: creating "/test-shm-1" in an empty namespace with
flags O_CREAT | O_RDWR and mode 0600. -/
theorem open_create_fresh_succeeds_witness :
    0 ≤ (shm_open_wrapper "/test-shm-1" 514 384 ⟨[], 3⟩).ret ∧
    (shm_open_wrapper "/test-shm-1" 514 384 ⟨[], 3⟩).errno = none :=
  open_create_fresh_succeeds "/test-shm-1" 514 384 ⟨[], 3⟩
    (by decide) (by decide) (by decide)

/-- C6: unlinking a name that is absent from the namespace fails with
return value `-1` and errno ENOENT. -/
theorem unlink_missing_enoent (name : String) (s : SysState)
    (habs : lookupName s.names name = none) :
    (shm_unlink_wrapper name s).ret = -1 ∧
    (shm_unlink_wrapper name s).errno = some Errno.ENOENT := by
  rw [shm_unlink_wrapper, shm_unlink]
  simp [habs]

/-- Witness for C6: unlinking "/missing" while only "/other" exists. -/
theorem unlink_missing_enoent_witness :
    (shm_unlink_wrapper "/missing" ⟨[("/other", ⟨0, 384⟩)], 4⟩).ret = -1 ∧
    (shm_unlink_wrapper "/missing" ⟨[("/other", ⟨0, 384⟩)], 4⟩).errno
      = some Errno.ENOENT :=
  unlink_missing_enoent "/missing" ⟨[("/other", ⟨0, 384⟩)], 4⟩ (by decide)

/-- Every branch of the modelled open either leaves the state unchanged or
returns the fresh descriptor. -/
theorem shm_open_state_or_ret (name : String) (oflag mode : Nat) (s : SysState) :
    (shm_open name oflag mode s).state = s ∨
    0 ≤ (shm_open name oflag mode s).ret := by
  rw [shm_open]
  split
  · split
    · split
      · exact Or.inl rfl
      · exact Or.inr (Int.ofNat_nonneg _)
    · split
      · exact Or.inr (Int.ofNat_nonneg _)
      · exact Or.inl rfl
  · exact Or.inl rfl

/-- Every branch of the modelled unlink either leaves the state unchanged
or returns 0. -/
theorem shm_unlink_state_or_ret (name : String) (s : SysState) :
    (shm_unlink name s).state = s ∨ (shm_unlink name s).ret = 0 := by
  rw [shm_unlink]
  split
  · exact Or.inr rfl
  · exact Or.inl rfl

/-- The modelled open leaves every namespace entry other than the
addressed name unchanged. -/
theorem shm_open_frame (name : String) (oflag mode : Nat) (s : SysState)
    (k : String) (hk : k ≠ name) :
    lookupName (shm_open name oflag mode s).state.names k = lookupName s.names k := by
  rw [shm_open]
  split
  · split
    · split
      · rfl
      · simp [lookupName_setName, hk]
    · split
      · have h3 : ¬ name = k := fun h => hk h.symm
        simp [lookupName, h3]
      · rfl
  · rfl

/-- The modelled unlink leaves every namespace entry other than the
addressed name unchanged. -/
theorem shm_unlink_frame (name : String) (s : SysState) (k : String)
    (hk : k ≠ name) :
    lookupName (shm_unlink name s).state.names k = lookupName s.names k := by
  rw [shm_unlink]
  split
  · simp [lookupName_removeName, hk]
  · rfl

/-- The modelled open never removes a name from the namespace: a present
key stays present across any open call. -/
theorem shm_open_preserves_present (name : String) (oflag mode : Nat)
    (s : SysState) (k : String)
    (h : (lookupName s.names k).isSome = true) :
    (lookupName (shm_open name oflag mode s).state.names k).isSome = true := by
  cases hv : validShmName name with
  | false => simpa [shm_open, hv] using h
  | true =>
    cases hl : lookupName s.names name with
    | some obj =>
      cases hce : hasFlag oflag O_CREAT && hasFlag oflag O_EXCL with
      | true => simpa [shm_open, hv, hl, hce] using h
      | false =>
        by_cases hk : k = name
        · subst hk
          simp [shm_open, hv, hl, hce, lookupName_setName]
        · simpa [shm_open, hv, hl, hce, lookupName_setName, hk] using h
    | none =>
      cases hcc : hasFlag oflag O_CREAT with
      | false => simpa [shm_open, hv, hl, hcc] using h
      | true =>
        by_cases hk : name = k
        · subst hk
          simp [shm_open, hv, hl, hcc, lookupName]
        · simpa [shm_open, hv, hl, hcc, lookupName, hk] using h

/-- C4: round-trip.  After a create-flagged open of a name succeeds and an
unlink of the same name succeeds, a further open of that name without the
create flag fails with return value `-1` and errno ENOENT. -/
theorem create_unlink_open_enoent (name : String)
    (oflag1 mode1 oflag3 mode3 : Nat) (s : SysState)
    (hc : hasFlag oflag1 O_CREAT = true)
    (h1 : 0 ≤ (shm_open_wrapper name oflag1 mode1 s).ret)
    (h2 : (shm_unlink_wrapper name (shm_open_wrapper name oflag1 mode1 s).state).ret = 0)
    (hnc : hasFlag oflag3 O_CREAT = false) :
    (shm_open_wrapper name oflag3 mode3
        (shm_unlink_wrapper name
          (shm_open_wrapper name oflag1 mode1 s).state).state).ret = -1 ∧
    (shm_open_wrapper name oflag3 mode3
        (shm_unlink_wrapper name
          (shm_open_wrapper name oflag1 mode1 s).state).state).errno
      = some Errno.ENOENT := by
  have hv : validShmName name = true :=
    shm_open_success_valid name oflag1 mode1 s h1
  have habs : lookupName (shm_unlink_wrapper name
      (shm_open_wrapper name oflag1 mode1 s).state).state.names name = none :=
    shm_unlink_absent_after name _
  have hout := shm_open_absent_nocreate name oflag3 mode3
    (shm_unlink_wrapper name (shm_open_wrapper name oflag1 mode1 s).state).state
    hv habs hnc
  rw [shm_open_wrapper, hout]
  exact ⟨rfl, rfl⟩

/-- Witness for C4: create "/test-shm-1" with O_CREAT | O_RDWR in an empty
namespace, unlink it, then open it read-write without O_CREAT. -/
theorem create_unlink_open_enoent_witness :
    (shm_open_wrapper "/test-shm-1" 2 0
        (shm_unlink_wrapper "/test-shm-1"
          (shm_open_wrapper "/test-shm-1" 514 384 ⟨[], 3⟩).state).state).ret = -1 ∧
    (shm_open_wrapper "/test-shm-1" 2 0
        (shm_unlink_wrapper "/test-shm-1"
          (shm_open_wrapper "/test-shm-1" 514 384 ⟨[], 3⟩).state).state).errno
      = some Errno.ENOENT :=
  create_unlink_open_enoent "/test-shm-1" 514 384 2 0 ⟨[], 3⟩
    (by decide) (by decide) (by decide) (by decide)

/-- C7: a successful create-flagged open of an absent well-formed name
leaves a zero-length object with the requested mode under that name; the
entry stays present across any further open call, and an unlink addressed
to a different name leaves it intact. -/
theorem create_postcondition (name : String) (oflag mode : Nat) (s : SysState)
    (hv : validShmName name = true)
    (habs : lookupName s.names name = none)
    (hc : hasFlag oflag O_CREAT = true) :
    lookupName (shm_open_wrapper name oflag mode s).state.names name
      = some ⟨0, mode⟩ ∧
    (∀ (name2 : String) (oflag2 mode2 : Nat),
        (lookupName (shm_open_wrapper name2 oflag2 mode2
            (shm_open_wrapper name oflag mode s).state).state.names name).isSome
          = true) ∧
    (∀ name2 : String, name2 ≠ name →
        lookupName (shm_unlink_wrapper name2
            (shm_open_wrapper name oflag mode s).state).state.names name
          = some ⟨0, mode⟩) := by
  have hpresent : lookupName (shm_open_wrapper name oflag mode s).state.names name
      = some ⟨0, mode⟩ := by
    rw [shm_open_wrapper, shm_open]
    simp [hv, habs, hc, lookupName]
  refine ⟨hpresent, ?_, ?_⟩
  · intro name2 oflag2 mode2
    exact shm_open_preserves_present name2 oflag2 mode2
      (shm_open_wrapper name oflag mode s).state name (by rw [hpresent]; rfl)
  · intro name2 hne
    rw [shm_unlink_wrapper,
      shm_unlink_frame name2 (shm_open_wrapper name oflag mode s).state name
        (Ne.symm hne)]
    exact hpresent

/-- Witness for C7: create "/a" with O_CREAT while "/b" exists, then check
the new entry directly and after unlinking "/b". -/
theorem create_postcondition_witness :
    lookupName (shm_open_wrapper "/a" 512 384
        ⟨[("/b", ⟨5, 448⟩)], 7⟩).state.names "/a" = some ⟨0, 384⟩ ∧
    lookupName (shm_unlink_wrapper "/b"
        (shm_open_wrapper "/a" 512 384
          ⟨[("/b", ⟨5, 448⟩)], 7⟩).state).state.names "/a" = some ⟨0, 384⟩ :=
  ⟨(create_postcondition "/a" 512 384 ⟨[("/b", ⟨5, 448⟩)], 7⟩
      (by decide) (by decide) (by decide)).1,
   (create_postcondition "/a" 512 384 ⟨[("/b", ⟨5, 448⟩)], 7⟩
      (by decide) (by decide) (by decide)).2.2 "/b" (by decide)⟩

/-- C8: opening an empty or malformed name fails with return value `-1`
and errno EINVAL, regardless of flags, mode and state. -/
theorem invalid_name_einval (name : String) (oflag mode : Nat) (s : SysState)
    (hv : validShmName name = false) :
    (shm_open_wrapper name oflag mode s).ret = -1 ∧
    (shm_open_wrapper name oflag mode s).errno = some Errno.EINVAL := by
  rw [shm_open_wrapper, shm_open]
  simp [hv]

/-- Witness for C8: a name with an embedded slash after the leading one. -/
theorem invalid_name_einval_witness :
    (shm_open_wrapper "/foo/bar" 514 384 ⟨[], 3⟩).ret = -1 ∧
    (shm_open_wrapper "/foo/bar" 514 384 ⟨[], 3⟩).errno = some Errno.EINVAL :=
  invalid_name_einval "/foo/bar" 514 384 ⟨[], 3⟩ (by decide)

/-- C9: frame property.  Both wrapper calls leave every namespace entry
for a name other than the one they address unchanged. -/
theorem frame_other_names (name : String) (oflag mode : Nat) (s : SysState)
    (k : String) (hk : k ≠ name) :
    lookupName (shm_open_wrapper name oflag mode s).state.names k
      = lookupName s.names k ∧
    lookupName (shm_unlink_wrapper name s).state.names k
      = lookupName s.names k :=
  ⟨shm_open_frame name oflag mode s k hk, shm_unlink_frame name s k hk⟩

/-- Witness for C9: creating "/a" and unlinking "/b" both leave the entry
for "/b" respectively "/b"-distinct names readable; here the untouched
key is "/c". -/
theorem frame_other_names_witness :
    lookupName (shm_open_wrapper "/a" 514 384
        ⟨[("/c", ⟨9, 448⟩)], 5⟩).state.names "/c" = lookupName [("/c", ⟨9, 448⟩)] "/c" ∧
    lookupName (shm_unlink_wrapper "/a"
        ⟨[("/c", ⟨9, 448⟩)], 5⟩).state.names "/c" = lookupName [("/c", ⟨9, 448⟩)] "/c" :=
  frame_other_names "/a" 514 384 ⟨[("/c", ⟨9, 448⟩)], 5⟩ "/c" (by decide)

/-- C10: atomicity on error.  Whenever a wrapper call returns `-1`, the
namespace state after the call is exactly the state before it. -/
theorem failure_preserves_state (name : String) (oflag mode : Nat) (s : SysState) :
    ((shm_open_wrapper name oflag mode s).ret = -1 →
        (shm_open_wrapper name oflag mode s).state = s) ∧
    ((shm_unlink_wrapper name s).ret = -1 →
        (shm_unlink_wrapper name s).state = s) := by
  constructor
  · intro h
    rcases shm_open_state_or_ret name oflag mode s with hs | hr
    · exact hs
    · exfalso
      rw [shm_open_wrapper] at h
      rw [h] at hr
      exact absurd hr (by decide)
  · intro h
    rcases shm_unlink_state_or_ret name s with hs | hr
    · exact hs
    · rw [shm_unlink_wrapper, hr] at h
      exact absurd h (by decide)

/-- Witness for C10: a failing open on a malformed name and a failing
unlink on a missing name both leave the state untouched. -/
theorem failure_preserves_state_witness :
    (shm_open_wrapper "bad" 514 384 ⟨[("/c", ⟨9, 448⟩)], 5⟩).state
      = ⟨[("/c", ⟨9, 448⟩)], 5⟩ ∧
    (shm_unlink_wrapper "/missing" ⟨[("/c", ⟨9, 448⟩)], 5⟩).state
      = ⟨[("/c", ⟨9, 448⟩)], 5⟩ :=
  ⟨(failure_preserves_state "bad" 514 384 ⟨[("/c", ⟨9, 448⟩)], 5⟩).1 (by decide),
   (failure_preserves_state "/missing" 514 384 ⟨[("/c", ⟨9, 448⟩)], 5⟩).2 (by decide)⟩

end ShmHelpers
